import Mathlib

/-!
Verification development for the RenderEffect JNI shim
(`libs/hwui/jni/RenderEffect.cpp`).

The shim marshals primitive arguments and opaque integer handles into
calls on the external Skia filter-graph constructors and reinterprets
the resulting owned pointer as an integer handle.  We embed the shim as
state-passing functions over an explicit heap of reference-counted
filter-graph nodes.  Handles are natural numbers; the null pointer is
the handle `0`.  The external library's constructors, reference
counting, and evaluation semantics are modelled from the spec where
their code is not part of this file.
-/

namespace RenderEffect

/-- A rectangle given by its left/top/right/bottom edges, mirroring
`SkRect::MakeLTRB`.  Coordinates are modelled as rationals. -/
structure SkRect where
  left : ℚ
  top : ℚ
  right : ℚ
  bottom : ℚ
  deriving DecidableEq, Repr

/-- `SkRect::MakeLTRB` — builds a rectangle from its four edges. -/
def SkRect.MakeLTRB (l t r b : ℚ) : SkRect := ⟨l, t, r, b⟩

/-- A rectangle is empty (malformed/degenerate) when its width or
height is not positive. -/
def SkRect.isEmpty (r : SkRect) : Bool :=
  decide (r.right ≤ r.left) || decide (r.bottom ≤ r.top)

/-- One external filter-graph node, as constructed by the shim's
factory functions.  Child handles are stored as the raw handle values
the shim passed to the external constructor (`0` = absent/null input).
The `image` node stores the pixel snapshot taken at construction
time. -/
inductive SkNode where
  | offset (dx dy : ℚ) (input : ℕ)
  | blur (sigmaX sigmaY : ℚ) (edgeTreatment : ℤ) (input : ℕ)
  | image (pixels : List ℕ) (src dst : SkRect)
  | colorFilter (cf : ℕ) (input : ℕ)
  | blend (mode : ℤ) (background foreground : ℕ)
  | compose (outer inner : ℕ)
  deriving DecidableEq, Repr

/-- The filter-input handles a node holds a reference to (null handles
held by the node are not references). -/
def SkNode.children : SkNode → List ℕ
  | .offset _ _ input => if input = 0 then [] else [input]
  | .blur _ _ _ input => if input = 0 then [] else [input]
  | .image _ _ _ => []
  | .colorFilter _ input => if input = 0 then [] else [input]
  | .blend _ bg fg =>
      (if bg = 0 then [] else [bg]) ++ (if fg = 0 then [] else [fg])
  | .compose outer inner =>
      (if outer = 0 then [] else [outer]) ++ (if inner = 0 then [] else [inner])

/-- The color-filter handle a node holds a reference to, if any. -/
def SkNode.cfChildren : SkNode → List ℕ
  | .colorFilter cf _ => if cf = 0 then [] else [cf]
  | _ => []

/-- The heap of live filter-graph nodes: an association list from
handle (node address) to the node and its reference count. -/
abbrev Heap := List (ℕ × SkNode × ℕ)

/-- Look a handle up in the heap. -/
def heapLookup : Heap → ℕ → Option (SkNode × ℕ)
  | [], _ => none
  | (k, n, rc) :: rest, h => if k = h then some (n, rc) else heapLookup rest h

/-- Replace the reference count of the first entry for a handle. -/
def heapSetRc : Heap → ℕ → ℕ → Heap
  | [], _, _ => []
  | (k, n, rc) :: rest, h, rc' =>
      if k = h then (k, n, rc') :: rest else (k, n, rc) :: heapSetRc rest h rc'

/-- Remove the first entry for a handle (the node is freed). -/
def heapRemove : Heap → ℕ → Heap
  | [], _ => []
  | (k, n, rc) :: rest, h =>
      if k = h then rest else (k, n, rc) :: heapRemove rest h

/-- Increment the reference count of a live node (`SkRefCnt::ref`). -/
def heapIncRef : Heap → ℕ → Heap
  | [], _ => []
  | (k, n, rc) :: rest, h =>
      if k = h then (k, n, rc + 1) :: rest else (k, n, rc) :: heapIncRef rest h

/-- The state threaded through the shim: the filter-node heap, a heap
of reference counts for external color-filter objects, and the next
fresh address the external allocator will hand out (a nonzero
address). -/
structure SkState where
  heap : Heap
  cfHeap : List (ℕ × ℕ)
  nextHandle : ℕ
  deriving DecidableEq, Repr

/-- Increment the reference count of a live color-filter object. -/
def cfIncRef : List (ℕ × ℕ) → ℕ → List (ℕ × ℕ)
  | [], _ => []
  | (k, rc) :: rest, h =>
      if k = h then (k, rc + 1) :: rest else (k, rc) :: cfIncRef rest h

/-- Decrement the reference count of a color-filter object, dropping it
when the count reaches zero. -/
def cfDecRef : List (ℕ × ℕ) → ℕ → List (ℕ × ℕ)
  | [], _ => []
  | (k, rc) :: rest, h =>
      if k = h then (if rc ≤ 1 then rest else (k, rc - 1) :: rest)
      else (k, rc) :: cfDecRef rest h

/-- `sk_ref_sp` on an image-filter pointer: a null pointer is left
alone, otherwise the node's reference count is incremented.  Modelled
from the spec: the external library increments its own refcount when a
node is used as an input. -/
def sk_ref_sp (s : SkState) (h : ℕ) : SkState :=
  if h = 0 then s else { s with heap := heapIncRef s.heap h }

/-- `sk_ref_sp` on a color-filter pointer. -/
def sk_ref_sp_cf (s : SkState) (h : ℕ) : SkState :=
  if h = 0 then s else { s with cfHeap := cfIncRef s.cfHeap h }

/-- Allocate a brand-new node at the next fresh address with reference
count 1.  Modelled from the spec: each external constructor returns a
newly constructed node owned by the returned reference; the shim's
`release()` transfers that single ownership reference to the returned
handle. -/
def SkState.alloc (s : SkState) (n : SkNode) : ℕ × SkState :=
  (s.nextHandle,
   { s with heap := (s.nextHandle, n, 1) :: s.heap,
            nextHandle := s.nextHandle + 1 })

namespace SkImageFilters

/-- Modelled from the spec: `SkImageFilters::Offset` constructs a new
offset node wrapping the (already-referenced) input. -/
def Offset (dx dy : ℚ) (input : ℕ) (s : SkState) : ℕ × SkState :=
  s.alloc (SkNode.offset dx dy input)

/-- Modelled from the spec: `SkImageFilters::Blur` constructs a new
blur node from the two sigmas, the edge-treatment enum and the
(already-referenced) input. -/
def Blur (sigmaX sigmaY : ℚ) (edgeTreatment : ℤ) (input : ℕ)
    (s : SkState) : ℕ × SkState :=
  s.alloc (SkNode.blur sigmaX sigmaY edgeTreatment input)

/-- Modelled from the spec: `SkImageFilters::Image` constructs a new
image node from the snapshotted pixels and the source/destination
rectangles; on a malformed (empty) rectangle the external library
cannot construct a node and returns a null reference, which the shim
reinterprets as the handle `0`. -/
def Image (pixels : List ℕ) (src dst : SkRect) (s : SkState) :
    ℕ × SkState :=
  if src.isEmpty || dst.isEmpty then (0, s)
  else s.alloc (SkNode.image pixels src dst)

/-- Modelled from the spec: `SkImageFilters::ColorFilter` constructs a
new node wrapping the input with the color transform applied. -/
def ColorFilter (cf : ℕ) (input : ℕ) (s : SkState) : ℕ × SkState :=
  s.alloc (SkNode.colorFilter cf input)

/-- Modelled from the spec: `SkImageFilters::Blend` constructs a new
node compositing the foreground over the background under the given
blend mode.  The first filter operand is the background, the second the
foreground. -/
def Blend (mode : ℤ) (background foreground : ℕ) (s : SkState) :
    ℕ × SkState :=
  s.alloc (SkNode.blend mode background foreground)

/-- Modelled from the spec: `SkImageFilters::Compose` constructs a new
node denoting `outer ∘ inner` — the inner filter is applied first and
the outer filter last. -/
def Compose (outer inner : ℕ) (s : SkState) : ℕ × SkState :=
  s.alloc (SkNode.compose outer inner)

end SkImageFilters

namespace Blur

/-- Modelled from the spec: `Blur::convertRadiusToSigma` (from the
repository's `libs/hwui/utils/Blur.cpp`, not part of this file) — the
fixed deterministic formula converting a blur radius to a Gaussian
sigma, a pure function of the radius alone.  The float constants are
rendered as exact rationals. -/
def convertRadiusToSigma (radius : ℚ) : ℚ :=
  if 0 < radius then (57735 / 100000) * radius + 1 / 2 else 0

end Blur

/-- The store of managed bitmaps, mapping a bitmap handle to its
current pixel contents. -/
abbrev BitmapStore := List (ℕ × List ℕ)

/-- Current pixel contents of a bitmap. -/
def bitmapPixels : BitmapStore → ℕ → List ℕ
  | [], _ => []
  | (k, px) :: rest, h => if k = h then px else bitmapPixels rest h

/-- Overwrite the pixel contents of a bitmap (a managed-side mutation
of the bitmap after a factory call). -/
def bitmapWrite : BitmapStore → ℕ → List ℕ → BitmapStore
  | [], _, _ => []
  | (k, px) :: rest, h, px' =>
      if k = h then (k, px') :: rest else (k, px) :: bitmapWrite rest h px'

/-- `createOffsetEffect(dx, dy, inputFilterHandle)`: references the
input filter (null-safe) and builds an offset node around it, returning
the new node's address as the handle. -/
def createOffsetEffect (s : SkState) (offsetX offsetY : ℚ)
    (inputFilterHandle : ℕ) : ℕ × SkState :=
  SkImageFilters.Offset offsetX offsetY inputFilterHandle
    (sk_ref_sp s inputFilterHandle)

/-- `createBlurEffect(radiusX, radiusY, inputFilterHandle,
edgeTreatment)`: converts each radius to a sigma via
`Blur::convertRadiusToSigma`, references the input filter (null-safe)
and builds a blur node. -/
def createBlurEffect (s : SkState) (radiusX radiusY : ℚ)
    (inputFilterHandle : ℕ) (edgeTreatment : ℤ) : ℕ × SkState :=
  SkImageFilters.Blur (Blur.convertRadiusToSigma radiusX)
    (Blur.convertRadiusToSigma radiusY) edgeTreatment inputFilterHandle
    (sk_ref_sp s inputFilterHandle)

/-- `createBitmapEffect(bitmapHandle, src..., dst...)`: takes a
snapshot of the bitmap's pixel contents at call time
(`toBitmap(bitmapHandle).makeImage()`, modelled from the spec: the
image view captures the current pixels and is not retroactively
affected by later bitmap mutation) and builds an image node from the
snapshot and the two rectangles. -/
def createBitmapEffect (s : SkState) (bitmaps : BitmapStore)
    (bitmapHandle : ℕ) (srcLeft srcTop srcRight srcBottom : ℚ)
    (dstLeft dstTop dstRight dstBottom : ℚ) : ℕ × SkState :=
  SkImageFilters.Image (bitmapPixels bitmaps bitmapHandle)
    (SkRect.MakeLTRB srcLeft srcTop srcRight srcBottom)
    (SkRect.MakeLTRB dstLeft dstTop dstRight dstBottom) s

/-- `createColorFilterEffect(colorFilterHandle, inputFilterHandle)`:
references the color filter and the input filter (each null-safe) and
builds a color-filter node. -/
def createColorFilterEffect (s : SkState) (colorFilterHandle : ℕ)
    (inputFilterHandle : ℕ) : ℕ × SkState :=
  SkImageFilters.ColorFilter colorFilterHandle inputFilterHandle
    (sk_ref_sp (sk_ref_sp_cf s colorFilterHandle) inputFilterHandle)

/-- `createBlendModeEffect(backgroundImageFilterHandle,
foregroundImageFilterHandle, blendmodeHandle)`: references both
operands (each null-safe) and builds a blend node with the background
as first operand and the foreground as second. -/
def createBlendModeEffect (s : SkState)
    (backgroundImageFilterHandle foregroundImageFilterHandle : ℕ)
    (blendmodeHandle : ℤ) : ℕ × SkState :=
  SkImageFilters.Blend blendmodeHandle backgroundImageFilterHandle
    foregroundImageFilterHandle
    (sk_ref_sp (sk_ref_sp s backgroundImageFilterHandle)
      foregroundImageFilterHandle)

/-- `createChainEffect(outerFilterHandle, innerFilterHandle)`:
references both operands (each null-safe) and builds a compose node
`outer ∘ inner`. -/
def createChainEffect (s : SkState) (outerFilterHandle innerFilterHandle : ℕ) :
    ℕ × SkState :=
  SkImageFilters.Compose outerFilterHandle innerFilterHandle
    (sk_ref_sp (sk_ref_sp s outerFilterHandle) innerFilterHandle)

/-- Total reference count of a handle in the heap (`0` when the handle
is not live). -/
def rcOf (hp : Heap) (h : ℕ) : ℕ :=
  match heapLookup hp h with
  | none => 0
  | some (_, rc) => rc

/-- The node a handle denotes, if live. -/
def nodeOf (hp : Heap) (h : ℕ) : Option SkNode :=
  match heapLookup hp h with
  | none => none
  | some (n, _) => some n

/-- Reference count of a color-filter object. -/
def cfRcOf : List (ℕ × ℕ) → ℕ → ℕ
  | [], _ => 0
  | (k, rc) :: rest, h => if k = h then rc else cfRcOf rest h

/-- One `unref` on a live node, modelled from the spec: the reference
count is decremented; when it reaches zero the node is freed, which in
turn releases the node's own references to its filter inputs and its
color filter.  `fuel` bounds the depth of the free cascade (each
recursion level frees one heap entry, so any fuel beyond the heap size
is enough). -/
def unrefFuel : ℕ → SkState → ℕ → SkState
  | 0, s, _ => s
  | fuel + 1, s, h =>
      match heapLookup s.heap h with
      | none => s
      | some (n, rc) =>
          if rc ≤ 1 then
            let freed : SkState :=
              { s with heap := heapRemove s.heap h,
                       cfHeap := n.cfChildren.foldl cfDecRef s.cfHeap }
            n.children.foldl (fun st c => unrefFuel fuel st c) freed
          else { s with heap := heapSetRc s.heap h (rc - 1) }

/-- `unref` with enough fuel for any cascade reachable in the heap. -/
def SkState.unref (s : SkState) (h : ℕ) : SkState :=
  unrefFuel (s.heap.length + 1) s h

/-- Modelled from the spec: `SkSafeUnref` checks for a null pointer
before decrementing — on handle `0` it is a no-op. -/
def SkSafeUnref (s : SkState) (h : ℕ) : SkState :=
  if h = 0 then s else s.unref h

/-- `RenderEffect_safeUnref(filter)`: the deallocation hook; delegates
to `SkSafeUnref`. -/
def RenderEffect_safeUnref (s : SkState) (filterHandle : ℕ) : SkState :=
  SkSafeUnref s filterHandle

/-- `getRenderEffectFinalizer()`: returns the address of the
deallocation hook, modelled as the hook itself. -/
def getRenderEffectFinalizer : SkState → ℕ → SkState :=
  RenderEffect_safeUnref

/-- Denotations of the external library's primitive filter semantics
over an abstract image type, modelled from the spec: all actual
image-processing math lives in the wrapped library, so it enters the
model only through this record.  `blendE mode bgResult fgResult`
composites the foreground operand's result over the background
operand's result under `mode`. -/
structure Denot (Img : Type) where
  offsetE : ℚ → ℚ → Img → Img
  blurE : ℚ → ℚ → ℤ → Img → Img
  imageE : List ℕ → SkRect → SkRect → Img → Img
  colorFilterE : ℕ → Img → Img
  blendE : ℤ → Img → Img → Img

/-- Modelled from the spec: lazy evaluation of a filter graph at
render time.  A pipeline is evaluated inner-to-outer; a null (`0`) or
missing filter acts as the identity (no-op passthrough).  Recursion is
on the handle value: every node constructed by the shim only references
nodes allocated before it, i.e. at strictly smaller addresses, so the
guards `child < h` hold on every heap the shim builds. -/
def evalFilter {Img : Type} (den : Denot Img) (hp : Heap) (h : ℕ)
    (img : Img) : Img :=
  if h = 0 then img
  else
    match heapLookup hp h with
    | none => img
    | some (SkNode.offset dx dy input, _) =>
        den.offsetE dx dy
          (if _ : input < h then evalFilter den hp input img else img)
    | some (SkNode.blur sx sy tile input, _) =>
        den.blurE sx sy tile
          (if _ : input < h then evalFilter den hp input img else img)
    | some (SkNode.image px src dst, _) => den.imageE px src dst img
    | some (SkNode.colorFilter cf input, _) =>
        den.colorFilterE cf
          (if _ : input < h then evalFilter den hp input img else img)
    | some (SkNode.blend mode bg fg, _) =>
        den.blendE mode
          (if _ : bg < h then evalFilter den hp bg img else img)
          (if _ : fg < h then evalFilter den hp fg img else img)
    | some (SkNode.compose outer inner, _) =>
        let innerRes :=
          if _ : inner < h then evalFilter den hp inner img else img
        if _ : outer < h then evalFilter den hp outer innerRes else innerRes
termination_by h

/-- One managed-side factory call, abstracting over the seven entry
points that construct a node. -/
inductive FactoryOp where
  | offsetOp (dx dy : ℚ) (input : ℕ)
  | blurOp (rx ry : ℚ) (input : ℕ) (edgeTreatment : ℤ)
  | bitmapOp (bitmapHandle : ℕ) (sl st sr sb dl dt dr db : ℚ)
  | colorFilterOp (cf : ℕ) (input : ℕ)
  | blendOp (bg fg : ℕ) (mode : ℤ)
  | chainOp (outer inner : ℕ)
  deriving DecidableEq, Repr

/-- Run one factory call against the current state and bitmap store. -/
def runOp (s : SkState) (bitmaps : BitmapStore) : FactoryOp → ℕ × SkState
  | .offsetOp dx dy input => createOffsetEffect s dx dy input
  | .blurOp rx ry input et => createBlurEffect s rx ry input et
  | .bitmapOp bh sl st sr sb dl dt dr db =>
      createBitmapEffect s bitmaps bh sl st sr sb dl dt dr db
  | .colorFilterOp cf input => createColorFilterEffect s cf input
  | .blendOp bg fg mode => createBlendModeEffect s bg fg mode
  | .chainOp outer inner => createChainEffect s outer inner

/-- The constructor inputs of a factory call are valid when the
external library can construct the node: every call except a bitmap
call with a malformed (empty) rectangle. -/
def opValid : FactoryOp → Bool
  | .bitmapOp _ sl st sr sb dl dt dr db =>
      !(SkRect.MakeLTRB sl st sr sb).isEmpty &&
        !(SkRect.MakeLTRB dl dt dr db).isEmpty
  | _ => true

/-- The raw filter-handle arguments of a factory call (the handles the
shim passes to `sk_ref_sp` on an image-filter pointer). -/
def opInputs : FactoryOp → List ℕ
  | .offsetOp _ _ input => [input]
  | .blurOp _ _ input _ => [input]
  | .bitmapOp _ _ _ _ _ _ _ _ _ => []
  | .colorFilterOp _ input => [input]
  | .blendOp bg fg _ => [bg, fg]
  | .chainOp outer inner => [outer, inner]

/-- The raw color-filter-handle arguments of a factory call. -/
def opCfInputs : FactoryOp → List ℕ
  | .colorFilterOp cf _ => [cf]
  | _ => []

/-- A color-filter handle is present in the color-filter heap. -/
def cfHas : List (ℕ × ℕ) → ℕ → Bool
  | [], _ => false
  | (k, _) :: rest, h => k == h || cfHas rest h

/-- How many references a list of raw handle arguments takes on a given
handle (null arguments take none). -/
def refsTo : List ℕ → ℕ → ℕ
  | [], _ => 0
  | i :: rest, k => (if i ≠ 0 ∧ i = k then 1 else 0) + refsTo rest k

theorem heapLookup_cons (a : ℕ) (n : SkNode) (rc : ℕ) (hp : Heap) (k : ℕ) :
    heapLookup ((a, n, rc) :: hp) k =
      if a = k then some (n, rc) else heapLookup hp k := rfl

theorem heapLookup_incRef (hp : Heap) (h k : ℕ) :
    heapLookup (heapIncRef hp h) k =
      if h = k then (heapLookup hp k).map (fun p => (p.1, p.2 + 1))
      else heapLookup hp k := by
  induction hp with
  | nil => simp [heapIncRef, heapLookup]
  | cons e rest ih =>
      obtain ⟨a, n, rc⟩ := e
      by_cases hah : a = h
      · subst hah
        by_cases hak : a = k <;>
          simp [heapIncRef, heapLookup, hak, ih]
      · by_cases hak : a = k
        · subst hak
          simp [heapIncRef, heapLookup, hah, Ne.symm hah]
        · simp [heapIncRef, heapLookup, hah, hak, ih]

theorem heapLookup_setRc (hp : Heap) (h rc' k : ℕ) :
    heapLookup (heapSetRc hp h rc') k =
      if h = k then (heapLookup hp k).map (fun p => (p.1, rc'))
      else heapLookup hp k := by
  induction hp with
  | nil => simp [heapSetRc, heapLookup]
  | cons e rest ih =>
      obtain ⟨a, n, rc⟩ := e
      by_cases hah : a = h
      · subst hah
        by_cases hak : a = k <;>
          simp [heapSetRc, heapLookup, hak, ih]
      · by_cases hak : a = k
        · subst hak
          simp [heapSetRc, heapLookup, hah, Ne.symm hah]
        · simp [heapSetRc, heapLookup, hah, hak, ih]

theorem heapRemove_cons_self (a : ℕ) (n : SkNode) (rc : ℕ) (hp : Heap) :
    heapRemove ((a, n, rc) :: hp) a = hp := by
  simp [heapRemove]

theorem sk_ref_sp_heap (s : SkState) (i : ℕ) :
    (sk_ref_sp s i).heap = if i = 0 then s.heap else heapIncRef s.heap i := by
  by_cases hi : i = 0 <;> simp [sk_ref_sp, hi]

theorem sk_ref_sp_cfHeap (s : SkState) (i : ℕ) :
    (sk_ref_sp s i).cfHeap = s.cfHeap := by
  by_cases hi : i = 0 <;> simp [sk_ref_sp, hi]

theorem sk_ref_sp_nextHandle (s : SkState) (i : ℕ) :
    (sk_ref_sp s i).nextHandle = s.nextHandle := by
  by_cases hi : i = 0 <;> simp [sk_ref_sp, hi]

theorem sk_ref_sp_cf_heap (s : SkState) (c : ℕ) :
    (sk_ref_sp_cf s c).heap = s.heap := by
  by_cases hc : c = 0 <;> simp [sk_ref_sp_cf, hc]

theorem sk_ref_sp_cf_nextHandle (s : SkState) (c : ℕ) :
    (sk_ref_sp_cf s c).nextHandle = s.nextHandle := by
  by_cases hc : c = 0 <;> simp [sk_ref_sp_cf, hc]

theorem heapLookup_sk_ref_sp_ne (s : SkState) (i k : ℕ) (hne : i ≠ k) :
    heapLookup (sk_ref_sp s i).heap k = heapLookup s.heap k := by
  rw [sk_ref_sp_heap]
  by_cases hi : i = 0
  · simp [hi]
  · simp [hi, heapLookup_incRef, hne]

theorem nodeOf_sk_ref_sp (s : SkState) (i k : ℕ) :
    nodeOf (sk_ref_sp s i).heap k = nodeOf s.heap k := by
  rw [nodeOf, nodeOf, sk_ref_sp_heap]
  by_cases hi : i = 0
  · simp [hi]
  · simp only [if_neg hi, heapLookup_incRef]
    by_cases hik : i = k
    · subst hik
      cases heapLookup s.heap i <;> simp
    · simp [hik]

theorem isSome_sk_ref_sp (s : SkState) (i k : ℕ) :
    (heapLookup (sk_ref_sp s i).heap k).isSome =
      (heapLookup s.heap k).isSome := by
  rw [sk_ref_sp_heap]
  by_cases hi : i = 0
  · simp [hi]
  · simp only [if_neg hi, heapLookup_incRef]
    by_cases hik : i = k
    · subst hik
      cases heapLookup s.heap i <;> simp
    · simp [hik]

theorem rcOf_sk_ref_sp (s : SkState) (i k : ℕ)
    (hlive : i ≠ 0 → (heapLookup s.heap i).isSome = true) :
    rcOf (sk_ref_sp s i).heap k =
      rcOf s.heap k + (if i ≠ 0 ∧ i = k then 1 else 0) := by
  rw [rcOf, rcOf, sk_ref_sp_heap]
  by_cases hi : i = 0
  · simp [hi]
  · simp only [if_neg hi, heapLookup_incRef]
    by_cases hik : i = k
    · subst hik
      rcases hlk : heapLookup s.heap i with _ | p
      · exact absurd (hlive hi) (by simp [hlk])
      · simp [hi]
    · simp [hik, hi]

theorem cfRcOf_cfIncRef (l : List (ℕ × ℕ)) (h k : ℕ)
    (hlive : cfHas l h = true) :
    cfRcOf (cfIncRef l h) k =
      cfRcOf l k + (if h = k then 1 else 0) := by
  induction l with
  | nil => simp [cfHas] at hlive
  | cons e rest ih =>
      obtain ⟨a, rc⟩ := e
      by_cases hah : a = h
      · subst hah
        by_cases hak : a = k <;> simp [cfIncRef, cfRcOf, hak]
      · have hlive' : cfHas rest h = true := by
          simpa [cfHas, hah] using hlive
        by_cases hak : a = k
        · subst hak
          simp [cfIncRef, cfRcOf, hah, Ne.symm hah, ih hlive']
        · simp [cfIncRef, cfRcOf, hah, hak, ih hlive']

/-- A concrete denotation over `ℕ` used to instantiate theorems at
concrete inputs: an image node denotes its first pixel, a blend denotes
an order-sensitive combination of its operands. -/
def denNat : Denot ℕ where
  offsetE := fun _ _ i => i + 100
  blurE := fun _ _ _ i => i + 200
  imageE := fun px _ _ _ => px.headD 0
  colorFilterE := fun _ i => i + 300
  blendE := fun _ a b => a + 2 * b

/-- A concrete unit rectangle used to instantiate theorems. -/
def rectUnit : SkRect := ⟨0, 0, 1, 1⟩

theorem evalFilter_zero {Img : Type} (den : Denot Img) (hp : Heap) (x : Img) :
    evalFilter den hp 0 x = x := by
  rw [evalFilter]; simp

theorem evalFilter_image {Img : Type} (den : Denot Img) (hp : Heap)
    (h rc : ℕ) (px : List ℕ) (src dst : SkRect) (x : Img)
    (hh : heapLookup hp h = some (SkNode.image px src dst, rc))
    (h0 : h ≠ 0) :
    evalFilter den hp h x = den.imageE px src dst x := by
  rw [evalFilter]; simp [h0, hh]

theorem evalFilter_blend {Img : Type} (den : Denot Img) (hp : Heap)
    (h bg fg rc : ℕ) (mode : ℤ) (x : Img)
    (hh : heapLookup hp h = some (SkNode.blend mode bg fg, rc))
    (hbg : bg < h) (hfg : fg < h) :
    evalFilter den hp h x =
      den.blendE mode (evalFilter den hp bg x) (evalFilter den hp fg x) := by
  have h0 : h ≠ 0 := by omega
  rw [evalFilter]; simp [h0, hh, hbg, hfg]

theorem evalFilter_compose {Img : Type} (den : Denot Img) (hp : Heap)
    (h outer inner rc : ℕ) (x : Img)
    (hh : heapLookup hp h = some (SkNode.compose outer inner, rc))
    (ho : outer < h) (hi : inner < h) :
    evalFilter den hp h x =
      evalFilter den hp outer (evalFilter den hp inner x) := by
  have h0 : h ≠ 0 := by omega
  rw [evalFilter]; simp [h0, hh, ho, hi]

/-- Every valid factory call returns the fresh address as its handle
and advances the allocator by one. -/
theorem runOp_fresh (s : SkState) (bm : BitmapStore) (op : FactoryOp)
    (hval : opValid op = true) :
    (runOp s bm op).1 = s.nextHandle ∧
      (runOp s bm op).2.nextHandle = s.nextHandle + 1 := by
  cases op with
  | bitmapOp bh sl st sr sb dl dt dr db =>
      simp only [opValid, Bool.and_eq_true, Bool.not_eq_true'] at hval
      simp [runOp, createBitmapEffect, SkImageFilters.Image, SkState.alloc,
        hval.1, hval.2]
  | offsetOp dx dy input =>
      simp [runOp, createOffsetEffect, SkImageFilters.Offset, SkState.alloc,
        sk_ref_sp_nextHandle]
  | blurOp rx ry input et =>
      simp [runOp, createBlurEffect, SkImageFilters.Blur, SkState.alloc,
        sk_ref_sp_nextHandle]
  | colorFilterOp cf input =>
      simp [runOp, createColorFilterEffect, SkImageFilters.ColorFilter,
        SkState.alloc, sk_ref_sp_nextHandle, sk_ref_sp_cf_nextHandle]
  | blendOp bg fg mode =>
      simp [runOp, createBlendModeEffect, SkImageFilters.Blend, SkState.alloc,
        sk_ref_sp_nextHandle]
  | chainOp outer inner =>
      simp [runOp, createChainEffect, SkImageFilters.Compose, SkState.alloc,
        sk_ref_sp_nextHandle]

/-- C10: the deallocation hook returned by `getRenderEffectFinalizer`
is `RenderEffect_safeUnref`, and invoking it on the null handle `0` is
a no-op: the release path checks for a null pointer before
decrementing, so no live handle is affected and no decrement occurs. -/
theorem finalizer_null_safe :
    getRenderEffectFinalizer = RenderEffect_safeUnref ∧
      ∀ s : SkState, RenderEffect_safeUnref s 0 = s := by
  refine ⟨rfl, fun s => ?_⟩
  simp [RenderEffect_safeUnref, SkSafeUnref]

/-- C3: `createBlurEffect` converts each of its two radius arguments to
a Gaussian sigma via the one fixed formula `Blur.convertRadiusToSigma`
before delegating: in every state (i.e. regardless of call order or any
prior calls) the constructed blur node stores exactly
`convertRadiusToSigma radiusX` and `convertRadiusToSigma radiusY`, so
the same radius always yields the same sigma. -/
theorem createBlurEffect_sigma_deterministic :
    ∀ (s : SkState) (radiusX radiusY : ℚ) (input : ℕ) (et : ℤ),
      heapLookup (createBlurEffect s radiusX radiusY input et).2.heap
          (createBlurEffect s radiusX radiusY input et).1 =
        some (SkNode.blur (Blur.convertRadiusToSigma radiusX)
          (Blur.convertRadiusToSigma radiusY) et input, 1) := by
  intro s rx ry input et
  simp [createBlurEffect, SkImageFilters.Blur, SkState.alloc,
    sk_ref_sp_nextHandle, heapLookup_cons]

theorem nodeOf_cons_ne (a : ℕ) (n : SkNode) (rc : ℕ) (hp : Heap) (k : ℕ)
    (hne : a ≠ k) : nodeOf ((a, n, rc) :: hp) k = nodeOf hp k := by
  simp [nodeOf, heapLookup, hne]

theorem rcOf_cons_ne (a : ℕ) (n : SkNode) (rc : ℕ) (hp : Heap) (k : ℕ)
    (hne : a ≠ k) : rcOf ((a, n, rc) :: hp) k = rcOf hp k := by
  simp [rcOf, heapLookup, hne]

theorem rcOf_cons_self (a : ℕ) (n : SkNode) (rc : ℕ) (hp : Heap) :
    rcOf ((a, n, rc) :: hp) a = rc := by
  simp [rcOf, heapLookup]

theorem createChainEffect_eq (s : SkState) (a b : ℕ) :
    createChainEffect s a b =
      (s.nextHandle,
        ⟨(s.nextHandle, SkNode.compose a b, 1) ::
            (sk_ref_sp (sk_ref_sp s a) b).heap,
          s.cfHeap, s.nextHandle + 1⟩) := by
  simp [createChainEffect, SkImageFilters.Compose, SkState.alloc,
    sk_ref_sp_nextHandle, sk_ref_sp_cfHeap]

theorem createBlendModeEffect_eq (s : SkState) (bg fg : ℕ) (mode : ℤ) :
    createBlendModeEffect s bg fg mode =
      (s.nextHandle,
        ⟨(s.nextHandle, SkNode.blend mode bg fg, 1) ::
            (sk_ref_sp (sk_ref_sp s bg) fg).heap,
          s.cfHeap, s.nextHandle + 1⟩) := by
  simp [createBlendModeEffect, SkImageFilters.Blend, SkState.alloc,
    sk_ref_sp_nextHandle, sk_ref_sp_cfHeap]

/-- C4: releasing a handle exactly once triggers exactly one decrement
of the underlying node's reference count and affects no other
still-live handle: while other live handles (e.g. composed graphs)
still reference the node, its count is ≥ 2 and the release is exactly
the decrement `rc - 1`, leaving every other heap entry, the
color-filter heap and the allocator untouched.  For the spec's concrete
scenario — an offset effect with `(dx = 5, dy = -3, input = 0)` — the
single release decrements the fresh node's count from 1 to 0, freeing
it and restoring the heap exactly. -/
theorem safeUnref_single_decrement :
    (∀ (s : SkState) (h : ℕ) (n : SkNode) (rc : ℕ),
        h ≠ 0 → heapLookup s.heap h = some (n, rc) → 2 ≤ rc →
        heapLookup (RenderEffect_safeUnref s h).heap h = some (n, rc - 1) ∧
          (∀ k, k ≠ h →
            heapLookup (RenderEffect_safeUnref s h).heap k =
              heapLookup s.heap k) ∧
          (RenderEffect_safeUnref s h).cfHeap = s.cfHeap ∧
          (RenderEffect_safeUnref s h).nextHandle = s.nextHandle) ∧
      (∀ s : SkState, 1 ≤ s.nextHandle →
        RenderEffect_safeUnref (createOffsetEffect s 5 (-3) 0).2
            (createOffsetEffect s 5 (-3) 0).1 =
          { s with nextHandle := s.nextHandle + 1 }) := by
  constructor
  · intro s h n rc h0 hh hrc
    have hnotle : ¬ rc ≤ 1 := by omega
    have hun : RenderEffect_safeUnref s h =
        { s with heap := heapSetRc s.heap h (rc - 1) } := by
      simp [RenderEffect_safeUnref, SkSafeUnref, h0, SkState.unref,
        unrefFuel, hh, hnotle]
    refine ⟨?_, fun k hk => ?_, ?_, ?_⟩
    · rw [hun]; simp [heapLookup_setRc, hh]
    · rw [hun]; simp [heapLookup_setRc, Ne.symm hk]
    · rw [hun]
    · rw [hun]
  · intro s hnz
    have hne : s.nextHandle ≠ 0 := by omega
    have hoff : createOffsetEffect s 5 (-3) 0 =
        (s.nextHandle,
          ⟨(s.nextHandle, SkNode.offset 5 (-3) 0, 1) :: s.heap, s.cfHeap,
            s.nextHandle + 1⟩) := by
      simp [createOffsetEffect, SkImageFilters.Offset, SkState.alloc,
        sk_ref_sp]
    rw [hoff]
    simp only [RenderEffect_safeUnref, SkSafeUnref, hne, if_neg hne,
      SkState.unref, List.length_cons]
    rw [unrefFuel]
    simp [heapLookup, SkNode.children, SkNode.cfChildren,
      heapRemove_cons_self]

/-- Witness for C4 at concrete inputs: releasing a doubly-referenced
node decrements its count from 2 to 1, and the spec's offset scenario
frees the node and restores the empty state. -/
theorem safeUnref_single_decrement_witness :
    heapLookup (RenderEffect_safeUnref
        ⟨[(1, SkNode.compose 0 0, 2)], [], 2⟩ 1).heap 1 =
      some (SkNode.compose 0 0, 1) ∧
    RenderEffect_safeUnref (createOffsetEffect ⟨[], [], 1⟩ 5 (-3) 0).2
        (createOffsetEffect ⟨[], [], 1⟩ 5 (-3) 0).1 = ⟨[], [], 2⟩ :=
  ⟨(safeUnref_single_decrement.1 ⟨[(1, SkNode.compose 0 0, 2)], [], 2⟩ 1
      (SkNode.compose 0 0) 2 (by decide) rfl (by decide)).1,
    safeUnref_single_decrement.2 ⟨[], [], 1⟩ (by decide)⟩

/-- C1: `createChainEffect(outer, inner)` returns a new handle owning a
compose node equivalent to `outer ∘ inner`: the constructed node stores
the pair in order with a single owning reference, its evaluation
applies the inner filter's effect first and the outer filter's effect
last, and chaining A then B then C (C innermost) evaluates as
`A(B(C(x)))`. -/
theorem createChainEffect_compose (s : SkState) :
    (∀ (outerH innerH h : ℕ) (s' : SkState),
        createChainEffect s outerH innerH = (h, s') →
        heapLookup s'.heap h = some (SkNode.compose outerH innerH, 1) ∧
          (outerH < s.nextHandle → innerH < s.nextHandle →
            ∀ (Img : Type) (den : Denot Img) (x : Img),
              evalFilter den s'.heap h x =
                evalFilter den s'.heap outerH
                  (evalFilter den s'.heap innerH x))) ∧
      (∀ (hA hB hC h1 h2 : ℕ) (s1 s2 : SkState),
        hA < s.nextHandle → hB < s.nextHandle → hC < s.nextHandle →
        createChainEffect s hB hC = (h1, s1) →
        createChainEffect s1 hA h1 = (h2, s2) →
        ∀ (Img : Type) (den : Denot Img) (x : Img),
          evalFilter den s2.heap h2 x =
            evalFilter den s2.heap hA
              (evalFilter den s2.heap hB (evalFilter den s2.heap hC x))) := by
  constructor
  · intro outerH innerH h s' heq
    have e1 : s.nextHandle = h := by
      simpa [createChainEffect_eq] using congrArg Prod.fst heq
    have e2 : s'.heap =
        (s.nextHandle, SkNode.compose outerH innerH, 1) ::
          (sk_ref_sp (sk_ref_sp s outerH) innerH).heap := by
      simpa [createChainEffect_eq] using
        (congrArg (fun p => p.2.heap) heq).symm
    subst e1
    constructor
    · rw [e2]; simp [heapLookup_cons]
    · intro ho hi Img den x
      exact evalFilter_compose den s'.heap s.nextHandle outerH innerH 1 x
        (by rw [e2]; simp [heapLookup_cons]) ho hi
  · intro hA hB hC h1 h2 s1 s2 hAlt hBlt hClt heq1 heq2
    have e1 : s.nextHandle = h1 := by
      simpa [createChainEffect_eq] using congrArg Prod.fst heq1
    have e2 : s1.heap =
        (s.nextHandle, SkNode.compose hB hC, 1) ::
          (sk_ref_sp (sk_ref_sp s hB) hC).heap := by
      simpa [createChainEffect_eq] using
        (congrArg (fun p => p.2.heap) heq1).symm
    have e3 : s1.nextHandle = s.nextHandle + 1 := by
      simpa [createChainEffect_eq] using
        (congrArg (fun p => p.2.nextHandle) heq1).symm
    have f1 : s1.nextHandle = h2 := by
      simpa [createChainEffect_eq] using congrArg Prod.fst heq2
    have f2 : s2.heap =
        (s1.nextHandle, SkNode.compose hA h1, 1) ::
          (sk_ref_sp (sk_ref_sp s1 hA) h1).heap := by
      simpa [createChainEffect_eq] using
        (congrArg (fun p => p.2.heap) heq2).symm
    subst e1
    subst f1
    intro Img den x
    have hlook2 : heapLookup s2.heap s1.nextHandle =
        some (SkNode.compose hA s.nextHandle, 1) := by
      rw [f2]; simp [heapLookup_cons]
    have hlook1 : heapLookup s2.heap s.nextHandle =
        some (SkNode.compose hB hC, 2) := by
      rw [f2, heapLookup_cons, if_neg (by omega)]
      rw [sk_ref_sp_heap, if_neg (by omega), heapLookup_incRef, if_pos rfl,
        heapLookup_sk_ref_sp_ne _ _ _ (by omega), e2]
      simp [heapLookup_cons]
    rw [evalFilter_compose den s2.heap s1.nextHandle hA s.nextHandle 1 x
      hlook2 (by omega) (by omega)]
    rw [evalFilter_compose den s2.heap s.nextHandle hB hC 2 x hlook1
      (by omega) (by omega)]

/-- Witness for C1 at concrete inputs: chaining three image nodes on a
concrete heap evaluates inner-to-outer. -/
theorem createChainEffect_compose_witness :
    evalFilter denNat
        (createChainEffect
          (createChainEffect
            ⟨[(1, SkNode.offset 1 1 0, 1), (2, SkNode.offset 2 2 0, 1),
              (3, SkNode.offset 3 3 0, 1)], [], 4⟩ 2 3).2 1
          (createChainEffect
            ⟨[(1, SkNode.offset 1 1 0, 1), (2, SkNode.offset 2 2 0, 1),
              (3, SkNode.offset 3 3 0, 1)], [], 4⟩ 2 3).1).2.heap
        (createChainEffect
          (createChainEffect
            ⟨[(1, SkNode.offset 1 1 0, 1), (2, SkNode.offset 2 2 0, 1),
              (3, SkNode.offset 3 3 0, 1)], [], 4⟩ 2 3).2 1
          (createChainEffect
            ⟨[(1, SkNode.offset 1 1 0, 1), (2, SkNode.offset 2 2 0, 1),
              (3, SkNode.offset 3 3 0, 1)], [], 4⟩ 2 3).1).1 0 =
      evalFilter denNat
        (createChainEffect
          (createChainEffect
            ⟨[(1, SkNode.offset 1 1 0, 1), (2, SkNode.offset 2 2 0, 1),
              (3, SkNode.offset 3 3 0, 1)], [], 4⟩ 2 3).2 1
          (createChainEffect
            ⟨[(1, SkNode.offset 1 1 0, 1), (2, SkNode.offset 2 2 0, 1),
              (3, SkNode.offset 3 3 0, 1)], [], 4⟩ 2 3).1).2.heap 1
        (evalFilter denNat
          (createChainEffect
            (createChainEffect
              ⟨[(1, SkNode.offset 1 1 0, 1), (2, SkNode.offset 2 2 0, 1),
                (3, SkNode.offset 3 3 0, 1)], [], 4⟩ 2 3).2 1
            (createChainEffect
              ⟨[(1, SkNode.offset 1 1 0, 1), (2, SkNode.offset 2 2 0, 1),
                (3, SkNode.offset 3 3 0, 1)], [], 4⟩ 2 3).1).2.heap 2
          (evalFilter denNat
            (createChainEffect
              (createChainEffect
                ⟨[(1, SkNode.offset 1 1 0, 1), (2, SkNode.offset 2 2 0, 1),
                  (3, SkNode.offset 3 3 0, 1)], [], 4⟩ 2 3).2 1
              (createChainEffect
                ⟨[(1, SkNode.offset 1 1 0, 1), (2, SkNode.offset 2 2 0, 1),
                  (3, SkNode.offset 3 3 0, 1)], [], 4⟩ 2 3).1).2.heap 3 0)) :=
  (createChainEffect_compose
      ⟨[(1, SkNode.offset 1 1 0, 1), (2, SkNode.offset 2 2 0, 1),
        (3, SkNode.offset 3 3 0, 1)], [], 4⟩).2 1 2 3 _ _ _ _
    (by decide) (by decide) (by decide) rfl rfl ℕ denNat 0

/-- C2: `createBlendModeEffect(bg, fg, mode)` composites the
foreground over the background — the first handle argument lands in
the node's background slot and the second in its foreground slot, and
evaluation applies the external blend with the background result as
first operand — and it is order-sensitive: whenever the blend mode
acts non-commutatively on the two operands' results, swapping the two
handle arguments changes the resulting composite. -/
theorem createBlendModeEffect_order_sensitive (s : SkState) (bg fg : ℕ)
    (mode : ℤ) (hbg : bg < s.nextHandle) (hfg : fg < s.nextHandle)
    (h1 h2 : ℕ) (s1 s2 : SkState)
    (heq1 : createBlendModeEffect s bg fg mode = (h1, s1))
    (heq2 : createBlendModeEffect s1 fg bg mode = (h2, s2)) :
    nodeOf s1.heap h1 = some (SkNode.blend mode bg fg) ∧
      ∀ (Img : Type) (den : Denot Img) (x : Img),
        evalFilter den s2.heap h1 x =
            den.blendE mode (evalFilter den s2.heap bg x)
              (evalFilter den s2.heap fg x) ∧
          evalFilter den s2.heap h2 x =
            den.blendE mode (evalFilter den s2.heap fg x)
              (evalFilter den s2.heap bg x) ∧
          (den.blendE mode (evalFilter den s2.heap bg x)
              (evalFilter den s2.heap fg x) ≠
            den.blendE mode (evalFilter den s2.heap fg x)
              (evalFilter den s2.heap bg x) →
            evalFilter den s2.heap h1 x ≠ evalFilter den s2.heap h2 x) := by
  have e1 : s.nextHandle = h1 := by
    simpa [createBlendModeEffect_eq] using congrArg Prod.fst heq1
  have e2 : s1.heap =
      (s.nextHandle, SkNode.blend mode bg fg, 1) ::
        (sk_ref_sp (sk_ref_sp s bg) fg).heap := by
    simpa [createBlendModeEffect_eq] using
      (congrArg (fun p => p.2.heap) heq1).symm
  have e3 : s1.nextHandle = s.nextHandle + 1 := by
    simpa [createBlendModeEffect_eq] using
      (congrArg (fun p => p.2.nextHandle) heq1).symm
  have f1 : s1.nextHandle = h2 := by
    simpa [createBlendModeEffect_eq] using congrArg Prod.fst heq2
  have f2 : s2.heap =
      (s1.nextHandle, SkNode.blend mode fg bg, 1) ::
        (sk_ref_sp (sk_ref_sp s1 fg) bg).heap := by
    simpa [createBlendModeEffect_eq] using
      (congrArg (fun p => p.2.heap) heq2).symm
  subst e1
  subst f1
  have hnode1 : heapLookup s1.heap s.nextHandle =
      some (SkNode.blend mode bg fg, 1) := by
    rw [e2]; simp [heapLookup_cons]
  have hlook1 : heapLookup s2.heap s.nextHandle =
      some (SkNode.blend mode bg fg, 1) := by
    rw [f2, heapLookup_cons, if_neg (by omega)]
    rw [heapLookup_sk_ref_sp_ne _ _ _ (by omega),
      heapLookup_sk_ref_sp_ne _ _ _ (by omega)]
    exact hnode1
  have hlook2 : heapLookup s2.heap s1.nextHandle =
      some (SkNode.blend mode fg bg, 1) := by
    rw [f2]; simp [heapLookup_cons]
  refine ⟨by rw [nodeOf, hnode1], fun Img den x => ?_⟩
  have hev1 : evalFilter den s2.heap s.nextHandle x =
      den.blendE mode (evalFilter den s2.heap bg x)
        (evalFilter den s2.heap fg x) :=
    evalFilter_blend den s2.heap s.nextHandle bg fg 1 mode x hlook1 hbg hfg
  have hev2 : evalFilter den s2.heap s1.nextHandle x =
      den.blendE mode (evalFilter den s2.heap fg x)
        (evalFilter den s2.heap bg x) :=
    evalFilter_blend den s2.heap s1.nextHandle fg bg 1 mode x hlook2
      (by omega) (by omega)
  exact ⟨hev1, hev2, fun hne => by rw [hev1, hev2]; exact hne⟩

/-- Witness for C2 at concrete inputs: two image nodes blended both
ways under a non-commutative concrete blend denotation give different
composites. -/
theorem createBlendModeEffect_order_sensitive_witness :
    evalFilter denNat
        (createBlendModeEffect
          (createBlendModeEffect
            ⟨[(1, SkNode.image [7] rectUnit rectUnit, 1),
              (2, SkNode.image [9] rectUnit rectUnit, 1)], [], 3⟩ 1 2 0).2
          2 1 0).2.heap
        (createBlendModeEffect
          ⟨[(1, SkNode.image [7] rectUnit rectUnit, 1),
            (2, SkNode.image [9] rectUnit rectUnit, 1)], [], 3⟩ 1 2 0).1 0 ≠
      evalFilter denNat
        (createBlendModeEffect
          (createBlendModeEffect
            ⟨[(1, SkNode.image [7] rectUnit rectUnit, 1),
              (2, SkNode.image [9] rectUnit rectUnit, 1)], [], 3⟩ 1 2 0).2
          2 1 0).2.heap
        (createBlendModeEffect
          (createBlendModeEffect
            ⟨[(1, SkNode.image [7] rectUnit rectUnit, 1),
              (2, SkNode.image [9] rectUnit rectUnit, 1)], [], 3⟩ 1 2 0).2
          2 1 0).1 0 :=
  ((createBlendModeEffect_order_sensitive
      ⟨[(1, SkNode.image [7] rectUnit rectUnit, 1),
        (2, SkNode.image [9] rectUnit rectUnit, 1)], [], 3⟩ 1 2 0
      (by decide) (by decide) _ _ _ _ rfl rfl).2 ℕ denNat 0).2.2
    (by
      simp [createBlendModeEffect, SkImageFilters.Blend, SkState.alloc,
        sk_ref_sp, heapIncRef, evalFilter, heapLookup, denNat])

/-- C5: for all valid constructor inputs, every factory operation
returns a nonzero handle, and two independently requested
constructions (any two factory calls in sequence) return distinct
handles — no two calls alias the same node. -/
theorem factory_handle_nonzero_distinct (s : SkState)
    (bm bm' : BitmapStore) (op op' : FactoryOp)
    (hval : opValid op = true) (hval' : opValid op' = true)
    (hnz : 1 ≤ s.nextHandle) :
    (runOp s bm op).1 ≠ 0 ∧
      (runOp (runOp s bm op).2 bm' op').1 ≠ (runOp s bm op).1 := by
  obtain ⟨h1, h2⟩ := runOp_fresh s bm op hval
  obtain ⟨h1', _⟩ := runOp_fresh (runOp s bm op).2 bm' op' hval'
  constructor
  · omega
  · rw [h1', h2, h1]; omega

/-- Witness for C5 at concrete inputs: an offset construction followed
by a chain construction on the empty state. -/
theorem factory_handle_nonzero_distinct_witness :
    (runOp ⟨[], [], 1⟩ [] (FactoryOp.offsetOp 0 0 0)).1 ≠ 0 ∧
      (runOp (runOp ⟨[], [], 1⟩ [] (FactoryOp.offsetOp 0 0 0)).2 []
          (FactoryOp.chainOp 0 0)).1 ≠
        (runOp ⟨[], [], 1⟩ [] (FactoryOp.offsetOp 0 0 0)).1 :=
  factory_handle_nonzero_distinct ⟨[], [], 1⟩ [] []
    (FactoryOp.offsetOp 0 0 0) (FactoryOp.chainOp 0 0)
    (by decide) (by decide) (by decide)

/-- C7: no factory operation returns a distinguishable error value:
every call returns exactly the external library's result — either the
fresh node's address or the null handle `0`; when the library cannot
construct a node (invalid constructor inputs) the call returns `0` and
allocates nothing; and the null handle has identity/no-op semantics
under evaluation. -/
theorem factory_no_error_values :
    (∀ (s : SkState) (bm : BitmapStore) (op : FactoryOp),
        (runOp s bm op).1 = 0 ∨ (runOp s bm op).1 = s.nextHandle) ∧
      (∀ (s : SkState) (bm : BitmapStore) (op : FactoryOp),
          opValid op = false → (runOp s bm op).1 = 0 ∧ (runOp s bm op).2 = s) ∧
      (∀ (Img : Type) (den : Denot Img) (hp : Heap) (x : Img),
          evalFilter den hp 0 x = x) := by
  have hfail : ∀ (s : SkState) (bm : BitmapStore) (op : FactoryOp),
      opValid op = false → (runOp s bm op).1 = 0 ∧ (runOp s bm op).2 = s := by
    intro s bm op hval
    cases op with
    | bitmapOp bh sl st sr sb dl dt dr db =>
        have hdeg : ((SkRect.MakeLTRB sl st sr sb).isEmpty ||
            (SkRect.MakeLTRB dl dt dr db).isEmpty) = true := by
          by_contra hcon
          simp only [Bool.or_eq_true, not_or, Bool.not_eq_true] at hcon
          simp [opValid, hcon.1, hcon.2] at hval
        simp [runOp, createBitmapEffect, SkImageFilters.Image, hdeg]
    | offsetOp dx dy input => simp [opValid] at hval
    | blurOp rx ry input et => simp [opValid] at hval
    | colorFilterOp cf input => simp [opValid] at hval
    | blendOp bg fg mode => simp [opValid] at hval
    | chainOp outer inner => simp [opValid] at hval
  refine ⟨fun s bm op => ?_, hfail, fun Img den hp x => ?_⟩
  · by_cases hval : opValid op = true
    · exact Or.inr (runOp_fresh s bm op hval).1
    · exact Or.inl (hfail s bm op (by simpa using hval)).1
  · rw [evalFilter]; simp

/-- Witness for C7 at concrete inputs: a bitmap call with a degenerate
source rectangle returns the null handle and leaves the state
untouched, and evaluating the null handle is the identity. -/
theorem factory_no_error_values_witness :
    (runOp ⟨[], [], 1⟩ [] (FactoryOp.bitmapOp 0 0 0 0 0 0 0 1 1)).1 = 0 ∧
      evalFilter denNat [] 0 3 = 3 :=
  ⟨(factory_no_error_values.2.1 ⟨[], [], 1⟩ []
      (FactoryOp.bitmapOp 0 0 0 0 0 0 0 1 1) (by decide)).1,
    factory_no_error_values.2.2 ℕ denNat [] 3⟩

/-- C8: passing `0` (absent input) for the input-filter handle of
offset, blur, color-filter, chain or blend does not crash and still
returns a (nonzero) handle: the shim never dereferences a null input
pointer during construction — the new node is simply allocated around
the absent input and the rest of the state is untouched. -/
theorem null_input_construction_safe (s : SkState) (dx dy rx ry : ℚ)
    (et mode : ℤ) (hnz : 1 ≤ s.nextHandle) :
    ((createOffsetEffect s dx dy 0).1 ≠ 0 ∧
      (createOffsetEffect s dx dy 0).2 =
        ⟨(s.nextHandle, SkNode.offset dx dy 0, 1) :: s.heap, s.cfHeap,
          s.nextHandle + 1⟩) ∧
    ((createBlurEffect s rx ry 0 et).1 ≠ 0 ∧
      (createBlurEffect s rx ry 0 et).2 =
        ⟨(s.nextHandle,
            SkNode.blur (Blur.convertRadiusToSigma rx)
              (Blur.convertRadiusToSigma ry) et 0, 1) :: s.heap, s.cfHeap,
          s.nextHandle + 1⟩) ∧
    ((createColorFilterEffect s 0 0).1 ≠ 0 ∧
      (createColorFilterEffect s 0 0).2 =
        ⟨(s.nextHandle, SkNode.colorFilter 0 0, 1) :: s.heap, s.cfHeap,
          s.nextHandle + 1⟩) ∧
    ((createBlendModeEffect s 0 0 mode).1 ≠ 0 ∧
      (createBlendModeEffect s 0 0 mode).2 =
        ⟨(s.nextHandle, SkNode.blend mode 0 0, 1) :: s.heap, s.cfHeap,
          s.nextHandle + 1⟩) ∧
    ((createChainEffect s 0 0).1 ≠ 0 ∧
      (createChainEffect s 0 0).2 =
        ⟨(s.nextHandle, SkNode.compose 0 0, 1) :: s.heap, s.cfHeap,
          s.nextHandle + 1⟩) := by
  have hne : s.nextHandle ≠ 0 := by omega
  refine ⟨⟨?_, ?_⟩, ⟨?_, ?_⟩, ⟨?_, ?_⟩, ⟨?_, ?_⟩, ⟨?_, ?_⟩⟩ <;>
    simp [createOffsetEffect, createBlurEffect, createColorFilterEffect,
      createBlendModeEffect, createChainEffect, SkImageFilters.Offset,
      SkImageFilters.Blur, SkImageFilters.ColorFilter, SkImageFilters.Blend,
      SkImageFilters.Compose, SkState.alloc, sk_ref_sp, sk_ref_sp_cf, hne]

/-- Witness for C8 at concrete inputs on a one-node state. -/
theorem null_input_construction_safe_witness :
    ((createOffsetEffect ⟨[], [], 1⟩ 5 7 0).1 ≠ 0 ∧
      (createOffsetEffect ⟨[], [], 1⟩ 5 7 0).2 =
        ⟨[(1, SkNode.offset 5 7 0, 1)], [], 2⟩) ∧
    ((createBlurEffect ⟨[], [], 1⟩ 0 0 0 1).1 ≠ 0 ∧
      (createBlurEffect ⟨[], [], 1⟩ 0 0 0 1).2 =
        ⟨[(1, SkNode.blur 0 0 1 0, 1)], [], 2⟩) ∧
    ((createColorFilterEffect ⟨[], [], 1⟩ 0 0).1 ≠ 0 ∧
      (createColorFilterEffect ⟨[], [], 1⟩ 0 0).2 =
        ⟨[(1, SkNode.colorFilter 0 0, 1)], [], 2⟩) ∧
    ((createBlendModeEffect ⟨[], [], 1⟩ 0 0 3).1 ≠ 0 ∧
      (createBlendModeEffect ⟨[], [], 1⟩ 0 0 3).2 =
        ⟨[(1, SkNode.blend 3 0 0, 1)], [], 2⟩) ∧
    ((createChainEffect ⟨[], [], 1⟩ 0 0).1 ≠ 0 ∧
      (createChainEffect ⟨[], [], 1⟩ 0 0).2 =
        ⟨[(1, SkNode.compose 0 0, 1)], [], 2⟩) := by
  have := null_input_construction_safe ⟨[], [], 1⟩ 5 7 0 0 1 3 (by decide)
  simpa [Blur.convertRadiusToSigma] using this

/-- C6: every composing factory operation treats its input handles as
readonly: the call acquires exactly one new reference on each (nonzero)
input node — counted by `refsTo` over the op's raw handle arguments —
leaves every input node's structure and every other live entry
unchanged, acquires one reference on a nonzero color-filter input, and
returns a brand-new handle (the fresh address, distinct from every
input handle) owning a newly constructed node with reference count
1. -/
theorem composing_acquires_refs (s : SkState) (bm : BitmapStore)
    (op : FactoryOp) (hval : opValid op = true)
    (hin : ∀ i ∈ opInputs op, i ≠ 0 → (heapLookup s.heap i).isSome = true)
    (hlt : ∀ i ∈ opInputs op, i < s.nextHandle)
    (hcf : ∀ c ∈ opCfInputs op, c ≠ 0 → cfHas s.cfHeap c = true)
    (h : ℕ) (s' : SkState) (heq : runOp s bm op = (h, s')) :
    h = s.nextHandle ∧
      (∀ i ∈ opInputs op, i ≠ h) ∧
      rcOf s'.heap h = 1 ∧
      (∀ k, k ≠ h →
        nodeOf s'.heap k = nodeOf s.heap k ∧
          rcOf s'.heap k = rcOf s.heap k + refsTo (opInputs op) k) ∧
      (∀ c, cfRcOf s'.cfHeap c = cfRcOf s.cfHeap c +
        refsTo (opCfInputs op) c) := by
  cases op with
  | offsetOp dx dy input =>
      have heqq : runOp s bm (FactoryOp.offsetOp dx dy input) =
          (s.nextHandle,
            ⟨(s.nextHandle, SkNode.offset dx dy input, 1) ::
                (sk_ref_sp s input).heap, s.cfHeap, s.nextHandle + 1⟩) := by
        simp [runOp, createOffsetEffect, SkImageFilters.Offset,
          SkState.alloc, sk_ref_sp_nextHandle, sk_ref_sp_cfHeap]
      rw [heqq] at heq
      injection heq with hh hs
      subst hh
      subst hs
      refine ⟨rfl, fun i hi => by have := hlt i hi; omega, ?_, ?_, ?_⟩
      · exact rcOf_cons_self _ _ _ _
      · intro k hk
        constructor
        · dsimp only
          rw [nodeOf_cons_ne _ _ _ _ _ (Ne.symm hk), nodeOf_sk_ref_sp]
        · dsimp only
          rw [rcOf_cons_ne _ _ _ _ _ (Ne.symm hk),
            rcOf_sk_ref_sp s input k
              (fun h0 => hin input (by simp [opInputs]) h0)]
          simp [refsTo, opInputs]
      · intro c
        simp [refsTo, opCfInputs]
  | blurOp rx ry input et =>
      have heqq : runOp s bm (FactoryOp.blurOp rx ry input et) =
          (s.nextHandle,
            ⟨(s.nextHandle,
                SkNode.blur (Blur.convertRadiusToSigma rx)
                  (Blur.convertRadiusToSigma ry) et input, 1) ::
                (sk_ref_sp s input).heap, s.cfHeap, s.nextHandle + 1⟩) := by
        simp [runOp, createBlurEffect, SkImageFilters.Blur,
          SkState.alloc, sk_ref_sp_nextHandle, sk_ref_sp_cfHeap]
      rw [heqq] at heq
      injection heq with hh hs
      subst hh
      subst hs
      refine ⟨rfl, fun i hi => by have := hlt i hi; omega, ?_, ?_, ?_⟩
      · exact rcOf_cons_self _ _ _ _
      · intro k hk
        constructor
        · dsimp only
          rw [nodeOf_cons_ne _ _ _ _ _ (Ne.symm hk), nodeOf_sk_ref_sp]
        · dsimp only
          rw [rcOf_cons_ne _ _ _ _ _ (Ne.symm hk),
            rcOf_sk_ref_sp s input k
              (fun h0 => hin input (by simp [opInputs]) h0)]
          simp [refsTo, opInputs]
      · intro c
        simp [refsTo, opCfInputs]
  | bitmapOp bh sl st sr sb dl dt dr db =>
      simp only [opValid, Bool.and_eq_true, Bool.not_eq_true'] at hval
      have heqq : runOp s bm (FactoryOp.bitmapOp bh sl st sr sb dl dt dr db) =
          (s.nextHandle,
            ⟨(s.nextHandle,
                SkNode.image (bitmapPixels bm bh)
                  (SkRect.MakeLTRB sl st sr sb)
                  (SkRect.MakeLTRB dl dt dr db), 1) :: s.heap,
              s.cfHeap, s.nextHandle + 1⟩) := by
        simp [runOp, createBitmapEffect, SkImageFilters.Image,
          SkState.alloc, hval.1, hval.2]
      rw [heqq] at heq
      injection heq with hh hs
      subst hh
      subst hs
      refine ⟨rfl, fun i hi => by simp [opInputs] at hi, ?_, ?_, ?_⟩
      · exact rcOf_cons_self _ _ _ _
      · intro k hk
        refine ⟨?_, ?_⟩ <;> dsimp only
        · rw [nodeOf_cons_ne _ _ _ _ _ (Ne.symm hk)]
        · rw [rcOf_cons_ne _ _ _ _ _ (Ne.symm hk)]
          simp [refsTo, opInputs]
      · intro c
        simp [refsTo, opCfInputs]
  | colorFilterOp cf input =>
      have heqq : runOp s bm (FactoryOp.colorFilterOp cf input) =
          (s.nextHandle,
            ⟨(s.nextHandle, SkNode.colorFilter cf input, 1) ::
                (sk_ref_sp (sk_ref_sp_cf s cf) input).heap,
              (sk_ref_sp_cf s cf).cfHeap, s.nextHandle + 1⟩) := by
        simp [runOp, createColorFilterEffect, SkImageFilters.ColorFilter,
          SkState.alloc, sk_ref_sp_nextHandle, sk_ref_sp_cf_nextHandle,
          sk_ref_sp_cfHeap]
      rw [heqq] at heq
      injection heq with hh hs
      subst hh
      subst hs
      refine ⟨rfl, fun i hi => by have := hlt i hi; omega, ?_, ?_, ?_⟩
      · exact rcOf_cons_self _ _ _ _
      · intro k hk
        constructor
        · dsimp only
          rw [nodeOf_cons_ne _ _ _ _ _ (Ne.symm hk), nodeOf_sk_ref_sp,
            sk_ref_sp_cf_heap]
        · dsimp only
          rw [rcOf_cons_ne _ _ _ _ _ (Ne.symm hk),
            rcOf_sk_ref_sp (sk_ref_sp_cf s cf) input k
              (fun h0 => by
                rw [sk_ref_sp_cf_heap]
                exact hin input (by simp [opInputs]) h0),
            sk_ref_sp_cf_heap]
          simp [refsTo, opInputs]
      · intro c
        dsimp only
        by_cases hc0 : cf = 0
        · simp [sk_ref_sp_cf, hc0, refsTo, opCfInputs]
        · simp only [sk_ref_sp_cf, if_neg hc0]
          rw [cfRcOf_cfIncRef _ _ _ (hcf cf (by simp [opCfInputs]) hc0)]
          simp [refsTo, opCfInputs, hc0]
  | blendOp bg fg mode =>
      have heqq : runOp s bm (FactoryOp.blendOp bg fg mode) =
          createBlendModeEffect s bg fg mode := rfl
      rw [heqq, createBlendModeEffect_eq] at heq
      injection heq with hh hs
      subst hh
      subst hs
      refine ⟨rfl, fun i hi => by have := hlt i hi; omega, ?_, ?_, ?_⟩
      · exact rcOf_cons_self _ _ _ _
      · intro k hk
        constructor
        · dsimp only
          rw [nodeOf_cons_ne _ _ _ _ _ (Ne.symm hk), nodeOf_sk_ref_sp,
            nodeOf_sk_ref_sp]
        · dsimp only
          rw [rcOf_cons_ne _ _ _ _ _ (Ne.symm hk),
            rcOf_sk_ref_sp (sk_ref_sp s bg) fg k
              (fun h0 => by
                rw [isSome_sk_ref_sp]
                exact hin fg (by simp [opInputs]) h0),
            rcOf_sk_ref_sp s bg k
              (fun h0 => hin bg (by simp [opInputs]) h0)]
          simp [refsTo, opInputs, add_assoc]
      · intro c
        simp [refsTo, opCfInputs]
  | chainOp outer inner =>
      have heqq : runOp s bm (FactoryOp.chainOp outer inner) =
          createChainEffect s outer inner := rfl
      rw [heqq, createChainEffect_eq] at heq
      injection heq with hh hs
      subst hh
      subst hs
      refine ⟨rfl, fun i hi => by have := hlt i hi; omega, ?_, ?_, ?_⟩
      · exact rcOf_cons_self _ _ _ _
      · intro k hk
        constructor
        · dsimp only
          rw [nodeOf_cons_ne _ _ _ _ _ (Ne.symm hk), nodeOf_sk_ref_sp,
            nodeOf_sk_ref_sp]
        · dsimp only
          rw [rcOf_cons_ne _ _ _ _ _ (Ne.symm hk),
            rcOf_sk_ref_sp (sk_ref_sp s outer) inner k
              (fun h0 => by
                rw [isSome_sk_ref_sp]
                exact hin inner (by simp [opInputs]) h0),
            rcOf_sk_ref_sp s outer k
              (fun h0 => hin outer (by simp [opInputs]) h0)]
          simp [refsTo, opInputs, add_assoc]
      · intro c
        simp [refsTo, opCfInputs]

/-- Witness for C6 at concrete inputs: chaining two live nodes
increments the first input's reference count by exactly its number of
occurrences among the call's inputs. -/
theorem composing_acquires_refs_witness :
    rcOf (runOp ⟨[(1, SkNode.compose 0 0, 1), (2, SkNode.compose 0 0, 1)],
        [(5, 1)], 3⟩ [] (FactoryOp.chainOp 1 2)).2.heap 1 =
      rcOf (⟨[(1, SkNode.compose 0 0, 1), (2, SkNode.compose 0 0, 1)],
        [(5, 1)], 3⟩ : SkState).heap 1 +
        refsTo (opInputs (FactoryOp.chainOp 1 2)) 1 :=
  ((composing_acquires_refs
      ⟨[(1, SkNode.compose 0 0, 1), (2, SkNode.compose 0 0, 1)],
        [(5, 1)], 3⟩ [] (FactoryOp.chainOp 1 2) (by decide) (by decide)
      (by decide) (by decide) _ _ rfl).2.2.2.1 1 (by decide)).2

/-- A bitmap handle is present in the bitmap store. -/
def bitmapHas : BitmapStore → ℕ → Bool
  | [], _ => false
  | (k, _) :: rest, h => k == h || bitmapHas rest h

theorem bitmapPixels_write_self (bmp : BitmapStore) (bh : ℕ)
    (px' : List ℕ) (hhas : bitmapHas bmp bh = true) :
    bitmapPixels (bitmapWrite bmp bh px') bh = px' := by
  induction bmp with
  | nil => simp [bitmapHas] at hhas
  | cons e rest ih =>
      obtain ⟨a, px⟩ := e
      by_cases hab : a = bh
      · simp [bitmapWrite, bitmapPixels, hab]
      · have hhas' : bitmapHas rest bh = true := by
          simpa [bitmapHas, hab] using hhas
        simp [bitmapWrite, bitmapPixels, hab, ih hhas']

/-- C9: `createBitmapEffect` captures a snapshot of the bitmap's pixel
contents at the moment of the call: the constructed image node stores
the call-time pixels by value, its evaluated output is the external
image denotation of exactly those call-time pixels (the heap carries no
reference back to the bitmap store, so any later mutation of the bitmap
leaves the node and its evaluation as if no mutation had occurred),
while the same call issued after a mutation would instead capture the
mutated pixels. -/
theorem createBitmapEffect_snapshot (s : SkState) (bmp : BitmapStore)
    (bh : ℕ) (sl st sr sb dl dt dr db : ℚ) (h : ℕ) (s' : SkState)
    (hnz : 1 ≤ s.nextHandle)
    (hsrc : (SkRect.MakeLTRB sl st sr sb).isEmpty = false)
    (hdst : (SkRect.MakeLTRB dl dt dr db).isEmpty = false)
    (hhas : bitmapHas bmp bh = true)
    (heq : createBitmapEffect s bmp bh sl st sr sb dl dt dr db = (h, s')) :
    heapLookup s'.heap h =
        some (SkNode.image (bitmapPixels bmp bh)
          (SkRect.MakeLTRB sl st sr sb) (SkRect.MakeLTRB dl dt dr db), 1) ∧
      (∀ (Img : Type) (den : Denot Img) (x : Img),
        evalFilter den s'.heap h x =
          den.imageE (bitmapPixels bmp bh) (SkRect.MakeLTRB sl st sr sb)
            (SkRect.MakeLTRB dl dt dr db) x) ∧
      (∀ px' : List ℕ,
        heapLookup (createBitmapEffect s (bitmapWrite bmp bh px') bh
            sl st sr sb dl dt dr db).2.heap
          (createBitmapEffect s (bitmapWrite bmp bh px') bh
            sl st sr sb dl dt dr db).1 =
          some (SkNode.image px' (SkRect.MakeLTRB sl st sr sb)
            (SkRect.MakeLTRB dl dt dr db), 1)) := by
  have hbody : ∀ bmp' : BitmapStore,
      createBitmapEffect s bmp' bh sl st sr sb dl dt dr db =
        (s.nextHandle,
          ⟨(s.nextHandle,
              SkNode.image (bitmapPixels bmp' bh)
                (SkRect.MakeLTRB sl st sr sb)
                (SkRect.MakeLTRB dl dt dr db), 1) :: s.heap,
            s.cfHeap, s.nextHandle + 1⟩) := by
    intro bmp'
    simp [createBitmapEffect, SkImageFilters.Image, SkState.alloc,
      hsrc, hdst]
  have heq' := heq
  rw [hbody bmp] at heq'
  injection heq' with hh hs
  subst hh
  subst hs
  have hlook : heapLookup
      ((s.nextHandle,
          SkNode.image (bitmapPixels bmp bh) (SkRect.MakeLTRB sl st sr sb)
            (SkRect.MakeLTRB dl dt dr db), 1) :: s.heap) s.nextHandle =
      some (SkNode.image (bitmapPixels bmp bh)
        (SkRect.MakeLTRB sl st sr sb) (SkRect.MakeLTRB dl dt dr db), 1) := by
    simp [heapLookup_cons]
  refine ⟨hlook, fun Img den x => ?_, fun px' => ?_⟩
  · exact evalFilter_image den _ s.nextHandle 1 _ _ _ x hlook (by omega)
  · rw [hbody (bitmapWrite bmp bh px')]
    simp [heapLookup_cons, bitmapPixels_write_self bmp bh px' hhas]

/-- Witness for C9 at concrete inputs: a one-bitmap store; the node
snapshots the original pixels and a post-mutation call would capture
the new ones. -/
theorem createBitmapEffect_snapshot_witness :
    heapLookup (createBitmapEffect ⟨[], [], 1⟩ [(4, [7, 8])] 4
        0 0 1 1 0 0 2 2).2.heap
      (createBitmapEffect ⟨[], [], 1⟩ [(4, [7, 8])] 4 0 0 1 1 0 0 2 2).1 =
      some (SkNode.image (bitmapPixels [(4, [7, 8])] 4)
        (SkRect.MakeLTRB 0 0 1 1) (SkRect.MakeLTRB 0 0 2 2), 1) :=
  (createBitmapEffect_snapshot ⟨[], [], 1⟩ [(4, [7, 8])] 4 0 0 1 1 0 0 2 2
    _ _ (by decide) (by decide) (by decide) (by decide) rfl).1

end RenderEffect
